import Mathlib

/-!
Shallow embedding of the DeskTidy core pipeline
(`src/core/rules_engine.py`, `src/core/cleaner.py`,
`src/core/batch_processor.py`, `src/core/file_ops.py`) and proofs about it.

Modelling conventions:
* Python dicts of optional configuration keys become structures of `Option`
  fields (`none` = key absent); `dict.get(k, d)` becomes `Option.getD`.
* Timestamps are modelled at day resolution: `modified` and `now` are `Int`
  counts of days, so `(datetime.now() - modified).days` becomes `now - modified`.
* Regular-expression matching (`re.match` / `re.search`, both case-insensitive)
  is a library facility external to the repository; it is passed in as boolean
  parameters `remat reser : String → String → Bool` (pattern, text).
* Python's substring test `needle in haystack` becomes `strContains`.
* Numeric formatting inside human-readable reason/message strings (f-string
  float formatting) is abstracted to integer `toString`; no claim depends on
  the formatted numbers.
-/

namespace DeskTidy

/-- Contiguous-sublist test on character lists. -/
def infixOf (needle : List Char) : List Char → Bool
  | [] => needle.isEmpty
  | c :: cs => needle.isPrefixOf (c :: cs) || infixOf needle cs

/-- Python's `needle in haystack` substring test on strings. -/
def strContains (needle haystack : String) : Bool :=
  infixOf needle.toList haystack.toList

/-- Python's `str.lower()` (ASCII case folding, character by character). -/
def strLower (s : String) : String :=
  String.mk (s.toList.map Char.toLower)

/-- A file-metadata record as produced by `FileCleaner.scan_files` /
consumed by `RulesEngine.evaluate_file` (a Python dict with keys
`path`, `name`, `size`, `modified`, `extension` and optionally `mime_type`). -/
structure FileInfo where
  path : String
  name : String
  size : Nat
  modified : Int
  extension : String
  mime_type : Option String
deriving Repr, DecidableEq

/-- The per-category rules dict stored under `rules['categories'][cat]`;
only its `delete` key (read with `.get('delete', False)`) matters. -/
structure CategoryRule where
  delete : Option Bool
deriving Repr, DecidableEq

/-- The rules configuration dict loaded by `RulesEngine.load_rules`.
Each field is `none` when the corresponding key is absent. -/
structure EngineRules where
  max_age_days : Option Int
  min_size_mb : Option Int
  delete_extensions : Option (List String)
  name_patterns : Option (List String)
  excluded_folders : Option (List String)
  categories : Option (List (String × CategoryRule))
deriving Repr, DecidableEq

/-- The entirely empty engine configuration (`{}` in Python). -/
def emptyEngineRules : EngineRules :=
  ⟨none, none, none, none, none, none⟩

/-- `RulesEngine.categorize_file`: classify a file by extension, with the
MIME type (`file_info.get('mime_type', '')`) as fallback. -/
def categorize_file (f : FileInfo) : String :=
  let extension := strLower f.extension
  let mime_type := f.mime_type.getD ""
  if [".jpg", ".jpeg", ".png", ".gif", ".bmp", ".tiff", ".webp"].contains extension
      || strContains "image" mime_type then "images"
  else if [".pdf", ".doc", ".docx", ".xls", ".xlsx", ".ppt", ".pptx", ".txt"].contains extension
      || strContains "text" mime_type then "documents"
  else if [".mp4", ".avi", ".mov", ".wmv", ".flv", ".mkv"].contains extension
      || strContains "video" mime_type then "videos"
  else if [".mp3", ".wav", ".aac", ".flac", ".ogg"].contains extension
      || strContains "audio" mime_type then "audio"
  else if [".zip", ".rar", ".7z", ".tar", ".gz"].contains extension then "archives"
  else if [".tmp", ".temp", ".bak", ".old"].contains extension then "temporary"
  else if extension == ".log" then "logs"
  else "other"

/-- The running `(score, reasons)` accumulator of `evaluate_file`. -/
abbrev EvalAcc := Int × List String

/-- Age-based rule block of `evaluate_file`. -/
def ageStep (rules : EngineRules) (now : Int) (f : FileInfo) (acc : EvalAcc) : EvalAcc :=
  match rules.max_age_days with
  | none => acc
  | some max_age =>
    let file_age := now - f.modified
    if file_age > max_age then
      (acc.1 + 1, acc.2 ++ ["Old file (" ++ toString file_age ++ " days > " ++ toString max_age ++ " days)"])
    else acc

/-- Size-based rule block of `evaluate_file`. -/
def sizeStep (rules : EngineRules) (f : FileInfo) (acc : EvalAcc) : EvalAcc :=
  match rules.min_size_mb with
  | none => acc
  | some min_size_mb =>
    let min_size_bytes := min_size_mb * 1024 * 1024
    if (f.size : Int) > min_size_bytes then
      (acc.1 + 1, acc.2 ++ ["Large file (" ++ toString (f.size / 1024 / 1024) ++ "MB)"])
    else acc

/-- Extension-pattern block of `evaluate_file`: the `for`/`break` loop scans
the patterns and stops at the first match (`List.find?`), adding `+2` once. -/
def extStep (remat : String → String → Bool) (rules : EngineRules) (f : FileInfo)
    (acc : EvalAcc) : EvalAcc :=
  match rules.delete_extensions with
  | none => acc
  | some patterns =>
    match patterns.find? (fun pattern => remat pattern f.extension) with
    | some pattern => (acc.1 + 2, acc.2 ++ ["Extension matches: " ++ pattern])
    | none => acc

/-- Filename-pattern block of `evaluate_file`: every matching pattern adds `+1`. -/
def nameStep (reser : String → String → Bool) (rules : EngineRules) (f : FileInfo)
    (acc : EvalAcc) : EvalAcc :=
  match rules.name_patterns with
  | none => acc
  | some patterns =>
    patterns.foldl
      (fun a pattern =>
        if reser pattern f.name then
          (a.1 + 1, a.2 ++ ["Name matches pattern: " ++ pattern])
        else a)
      acc

/-- Protected-folder block of `evaluate_file`: every excluded folder that is a
substring of the path subtracts `10`. -/
def exclStep (rules : EngineRules) (f : FileInfo) (acc : EvalAcc) : EvalAcc :=
  match rules.excluded_folders with
  | none => acc
  | some folders =>
    folders.foldl
      (fun a folder =>
        if strContains folder f.path then
          (a.1 - 10, a.2 ++ ["Protected folder: " ++ folder])
        else a)
      acc

/-- Category block of `evaluate_file`: `+3` when the file's category is in the
configured category dict with its `delete` flag true. -/
def catStep (rules : EngineRules) (f : FileInfo) (acc : EvalAcc) : EvalAcc :=
  match rules.categories with
  | none => acc
  | some categories =>
    let file_category := categorize_file f
    match categories.lookup file_category with
    | none => acc
    | some category_rules =>
      if category_rules.delete.getD false then
        (acc.1 + 3, acc.2 ++ ["Category: " ++ file_category])
      else acc

/-- `RulesEngine.evaluate_file`, as the sequential accumulation of the six
rule blocks in source order, returning the final `(score, reasons)`. -/
def evaluate_core (remat reser : String → String → Bool) (rules : EngineRules)
    (now : Int) (f : FileInfo) : EvalAcc :=
  catStep rules f
    (exclStep rules f
      (nameStep reser rules f
        (extStep remat rules f
          (sizeStep rules f
            (ageStep rules now f ((0 : Int), ([] : List String)))))))

/-- The score computed by `evaluate_file`. -/
def evalScore (remat reser : String → String → Bool) (rules : EngineRules)
    (now : Int) (f : FileInfo) : Int :=
  (evaluate_core remat reser rules now f).1

/-- `RulesEngine.evaluate_file`'s return value: `(score >= 2, reasons)`. -/
def evaluate_file (remat reser : String → String → Bool) (rules : EngineRules)
    (now : Int) (f : FileInfo) : Bool × List String :=
  let r := evaluate_core remat reser rules now f
  (r.1 ≥ 2, r.2)

/-! ### `src/core/cleaner.py` -/

/-- The extension part of Python's `os.path.splitext`: index of the last `.`
in the name, if any. -/
def lastDotIndex (cs : List Char) : Option Nat :=
  (List.range cs.length).foldl
    (fun acc i => if cs.getD i ' ' == '.' then some i else acc) none

/-- `os.path.splitext(name)[1]` for a bare file name (no path separators):
everything from the last dot, unless every character before it is a dot
(so `.bashrc` has no extension). -/
def splitextExt (name : String) : String :=
  let cs := name.toList
  match lastDotIndex cs with
  | none => ""
  | some i =>
    if (cs.take i).any (fun c => c != '.') then String.mk (cs.drop i) else ""

/-- One directory entry seen by `os.walk`: its joined path, bare file name and
the result of `os.stat` (`none` when the stat raises and the file is skipped).
The stat pair is `(st_size, st_mtime in days)`. -/
structure DirEntry where
  path : String
  name : String
  stat : Option (Nat × Int)
deriving Repr, DecidableEq

/-- The folder handed to `FileCleaner`: whether the root path exists and is a
walkable directory (`os.walk` yields nothing otherwise, raising no error),
and the regular files below it in traversal order. -/
structure Folder where
  rootIsDir : Bool
  entries : List DirEntry
deriving Repr, DecidableEq

/-- Loop body of `FileCleaner.scan_files` for one walked entry: append file
metadata and add to `self.total_size`, or skip the entry when its stat
raised. -/
def scanStep (acc : List FileInfo × Nat) (e : DirEntry) : List FileInfo × Nat :=
  match e.stat with
  | none => acc
  | some st =>
    (acc.1 ++ [{ path := e.path, name := e.name, size := st.1, modified := st.2,
                 extension := strLower (splitextExt e.name), mime_type := none }],
     acc.2 + st.1)

/-- `FileCleaner.scan_files` proper: fold `scanStep` over the walked entries
(none when the root is missing or not a directory). -/
def scan_files (fs : Folder) : List FileInfo × Nat :=
  if fs.rootIsDir then fs.entries.foldl scanStep ([], 0) else ([], 0)

/-- Modelled from the spec: the spec's `ScanError` ("root path missing or
unreadable; fatal to the scan call") has no counterpart anywhere in `src/` —
`scan_files` never raises. This definition follows the spec's words, for
comparison with `scan_files`. -/
inductive ScanError where
  | rootMissingOrNotDir
deriving Repr, DecidableEq

/-- Modelled from the spec: `scan(rootPath)` fails with `ScanError` if the
root path does not exist or is not a directory, else returns the records. -/
def scan_spec (fs : Folder) : Except ScanError (List FileInfo × Nat) :=
  if fs.rootIsDir then Except.ok (scan_files fs) else Except.error ScanError.rootMissingOrNotDir

/-- The simple rules dict consumed by `FileCleaner.filter_files`; `none`
means the key is absent, so `dict.get`'s default applies. -/
structure CleanRules where
  delete_tmp : Option Bool
  delete_log : Option Bool
  delete_cache : Option Bool
  custom_extensions : Option (List String)
  file_age_days : Option Int
  min_size_mb : Option Int
deriving Repr, DecidableEq

/-- The entirely empty simple-rules configuration (`{}` in Python). -/
def emptyCleanRules : CleanRules :=
  ⟨none, none, none, none, none, none⟩

/-- The per-file decision body of `FileCleaner.filter_files`, mirroring the
source's `should_delete` accumulation: an `if/elif` chain over the built-in
extension toggles (`delete_tmp` defaults to `True`, the other two to
`False`), then custom extensions, then the age rule (default threshold 30
days) and the size rule (default threshold 1 MB). -/
def should_delete (rules : CleanRules) (now : Int) (file : FileInfo) : Bool :=
  let sd1 :=
    if rules.delete_tmp.getD true && [".tmp", ".temp"].contains file.extension then true
    else if rules.delete_log.getD false && file.extension == ".log" then true
    else if rules.delete_cache.getD false && strContains "cache" (strLower file.name) then true
    else false
  let custom_extensions := rules.custom_extensions.getD []
  let sd2 := if custom_extensions.contains file.extension then true else sd1
  let file_age_days := rules.file_age_days.getD 30
  let sd3 := if now - file.modified > file_age_days then true else sd2
  let min_size_mb := rules.min_size_mb.getD 1
  if (file.size : Int) > min_size_mb * 1024 * 1024 then true else sd3

/-- `FileCleaner.filter_files`: keep exactly the files marked for deletion. -/
def filter_files (rules : CleanRules) (now : Int) (files : List FileInfo) : List FileInfo :=
  files.filter (should_delete rules now)

/-! ### `src/core/file_ops.py` -/

/-- `FileOperations.safe_extensions`: extensions considered unsafe to delete. -/
def safe_extensions : List String :=
  [".exe", ".dll", ".sys", ".bat", ".cmd", ".ps1",
   ".sh", ".py", ".js", ".php", ".html", ".xml"]

/-- The filesystem facts about one path that `safe_delete` consults. -/
structure PathState where
  pathExists : Bool
  is_symlink : Bool
  resolvesToHome : Bool
  suffix : String
  size : Nat
deriving Repr, DecidableEq

/-- Outcome of the actual `os.remove` call inside `safe_delete` (and of the
exceptions its surrounding `try` can catch). -/
inductive RemovalModel where
  | ok
  | permissionError
  | otherError (msg : String)
deriving Repr, DecidableEq

/-- `FileOperations.safe_delete`: the five safety checks in source order,
then the trash-or-permanent deletion. `trashWorks` models whether the
`send2trash` import/call succeeds; `removal` models `os.remove`. -/
def safe_delete (st : PathState) (send_to_trash trashWorks : Bool)
    (removal : RemovalModel) : Bool × String :=
  if !st.pathExists then (false, "File does not exist")
  else if st.is_symlink then (false, "Cannot delete symbolic links")
  else if st.resolvesToHome then (false, "Cannot delete home directory")
  else if safe_extensions.contains (strLower st.suffix) then
    (false, "Unsafe extension: " ++ st.suffix)
  else if st.size > 100 * 1024 * 1024 then
    (false, "Large file detected (" ++ toString (st.size / 1024 / 1024) ++ "MB)")
  else if send_to_trash && trashWorks then (true, "Sent to trash")
  else
    match removal with
    | RemovalModel.ok => (true, "Permanently deleted")
    | RemovalModel.permissionError => (false, "Permission denied")
    | RemovalModel.otherError msg => (false, "Error: " ++ msg)

/-! ### `src/core/batch_processor.py` -/

/-- The per-file result dict built by `BatchProcessor.process_file`. -/
structure OpResult where
  file : String
  path : String
  size : Nat
  operation : String
  success : Bool
  error : Option String
deriving Repr, DecidableEq

/-- `BatchProcessor.process_file`: builds the result dict, then for
`'delete'` calls `os.remove` directly (no safety guard), setting
`success=True` on return or capturing the exception text; `'move'` and
`'compress'` are `pass` stubs, so the dict is returned unchanged.
`removeOutcome` models the `os.remove` call (`Except.error e` = raised `e`). -/
def process_file (file_info : FileInfo) (operation : String)
    (removeOutcome : Except String Unit) : OpResult :=
  let result : OpResult :=
    { file := file_info.name, path := file_info.path, size := file_info.size,
      operation := operation, success := false, error := none }
  if operation == "delete" then
    match removeOutcome with
    | Except.ok _ => { result with success := true }
    | Except.error e => { result with error := some e }
  else result

/-- The running `results` dict of `BatchProcessor.process_batch`. -/
structure BatchSummary where
  success : Nat
  failed : Nat
  skipped : Nat
  total_size : Nat
  errors : List (Option String)
deriving Repr, DecidableEq

/-- One completed future, in `as_completed` order: the file it belonged to
and `future.result(timeout=30)` — `Except.error e` when that call raised
(worker exception or timeout). -/
abbrev Completion := FileInfo × Except String OpResult

/-- The loop body of `process_batch` for one completed future: a successful
result bumps `success` and `total_size`; anything else bumps `failed` and
appends the error (the result dict's `error`, possibly `None`, or the
exception text). -/
def stepSummary (results : BatchSummary) (c : Completion) : BatchSummary :=
  match c.2 with
  | Except.ok r =>
    if r.success then
      { results with success := results.success + 1, total_size := results.total_size + r.size }
    else
      { results with failed := results.failed + 1, errors := results.errors ++ [r.error] }
  | Except.error e =>
    { results with failed := results.failed + 1, errors := results.errors ++ [some e] }

/-- The initial `results` dict of `process_batch`. -/
def initSummary : BatchSummary := ⟨0, 0, 0, 0, []⟩

/-- The `for future in as_completed(...)` loop of `process_batch`:
`stopFlag i` is the value of `self.stop_requested` read at the top of
iteration `i` (it is written concurrently by `stop_processing`); when it is
observed true the loop breaks and no further completion is aggregated. -/
def runBatchAux (stopFlag : Nat → Bool) :
    Nat → BatchSummary → List Completion → BatchSummary
  | _, results, [] => results
  | i, results, c :: cs =>
    if stopFlag i then results
    else runBatchAux stopFlag (i + 1) (stepSummary results c) cs

/-- `BatchProcessor.process_batch`, given the completions in arrival order:
always returns the aggregated summary dict. -/
def process_batch (stopFlag : Nat → Bool) (completed : List Completion) : BatchSummary :=
  runBatchAux stopFlag 0 initSummary completed

/-- A stop flag that is never set. -/
def stopNever : Nat → Bool := fun _ => false

/-- The mutable state of a `BatchProcessor` object relevant to cancellation. -/
structure BatchProcessor where
  max_workers : Nat
  stop_requested : Bool
deriving Repr, DecidableEq

/-- `BatchProcessor.stop_processing`: set the stop flag. -/
def stop_processing (p : BatchProcessor) : BatchProcessor :=
  { p with stop_requested := true }

/-- Does this completion land in the `failed` branch of the loop? -/
def isFailCompletion (c : Completion) : Bool :=
  match c.2 with
  | Except.ok r => !r.success
  | Except.error _ => true

/-- Does this completion land in the `success` branch of the loop? -/
def isSuccCompletion (c : Completion) : Bool :=
  match c.2 with
  | Except.ok r => r.success
  | Except.error _ => false

/-- The element this completion appends to `results['errors']`, if any. -/
def completionErr (c : Completion) : Option (Option String) :=
  match c.2 with
  | Except.ok r => if r.success then none else some r.error
  | Except.error e => some (some e)

/-- The number of bytes this completion adds to `results['total_size']`. -/
def completionSize (c : Completion) : Nat :=
  match c.2 with
  | Except.ok r => if r.success then r.size else 0
  | Except.error _ => 0

/-! ### Score decomposition for the rules engine -/

/-- Score contributed by the age rule: `+1` when the file's age exceeds
`max_age_days`. -/
def ageContrib (rules : EngineRules) (now : Int) (f : FileInfo) : Int :=
  match rules.max_age_days with
  | none => 0
  | some max_age => if now - f.modified > max_age then 1 else 0

/-- Score contributed by the size rule: `+1` when the size exceeds
`min_size_mb` megabytes. -/
def sizeContrib (rules : EngineRules) (f : FileInfo) : Int :=
  match rules.min_size_mb with
  | none => 0
  | some min_size_mb => if (f.size : Int) > min_size_mb * 1024 * 1024 then 1 else 0

/-- Score contributed by the extension patterns: `+2` when some pattern
matches (only once, however many match, because scanning stops at the first
match). -/
def extContrib (remat : String → String → Bool) (rules : EngineRules) (f : FileInfo) : Int :=
  match rules.delete_extensions with
  | none => 0
  | some patterns => if patterns.any (fun pattern => remat pattern f.extension) then 2 else 0

/-- Score contributed by the name patterns: `+1` per matching pattern. -/
def nameContrib (reser : String → String → Bool) (rules : EngineRules) (f : FileInfo) : Int :=
  match rules.name_patterns with
  | none => 0
  | some patterns => (patterns.countP (fun pattern => reser pattern f.name) : Int)

/-- Score contributed by the protected folders: `-10` per excluded folder
that is a substring of the path. -/
def exclContrib (rules : EngineRules) (f : FileInfo) : Int :=
  match rules.excluded_folders with
  | none => 0
  | some folders =>
    -10 * ((folders.countP (fun folder => strContains folder f.path)) : Int)

/-- Score contributed by the category rule: `+3` when the file's category is
configured with its `delete` flag true. -/
def catContrib (rules : EngineRules) (f : FileInfo) : Int :=
  match rules.categories with
  | none => 0
  | some categories =>
    match categories.lookup (categorize_file f) with
    | none => 0
    | some category_rules => if category_rules.delete.getD false then 3 else 0

theorem ageStep_fst (rules : EngineRules) (now : Int) (f : FileInfo) (acc : EvalAcc) :
    (ageStep rules now f acc).1 = acc.1 + ageContrib rules now f := by
  unfold ageStep ageContrib
  cases rules.max_age_days with
  | none => simp
  | some m => by_cases h : now - f.modified > m <;> simp [h]

theorem sizeStep_fst (rules : EngineRules) (f : FileInfo) (acc : EvalAcc) :
    (sizeStep rules f acc).1 = acc.1 + sizeContrib rules f := by
  unfold sizeStep sizeContrib
  cases rules.min_size_mb with
  | none => simp
  | some m => by_cases h : (f.size : Int) > m * 1024 * 1024 <;> simp [h]

theorem extStep_fst (remat : String → String → Bool) (rules : EngineRules)
    (f : FileInfo) (acc : EvalAcc) :
    (extStep remat rules f acc).1 = acc.1 + extContrib remat rules f := by
  unfold extStep extContrib
  cases rules.delete_extensions with
  | none => simp
  | some patterns =>
    cases hf : patterns.find? (fun pattern => remat pattern f.extension) with
    | none =>
      have hany : patterns.any (fun pattern => remat pattern f.extension) = false := by
        rw [List.find?_eq_none] at hf
        simp only [List.any_eq_false]
        exact fun p hp => by simpa using hf p hp
      simp [hf, hany]
    | some pat =>
      have hp : remat pat f.extension = true := by simpa using List.find?_some hf
      have hany : patterns.any (fun pattern => remat pattern f.extension) = true :=
        List.any_eq_true.mpr ⟨pat, List.mem_of_find?_eq_some hf, hp⟩
      simp [hf, hany]

theorem nameStep_foldl_fst (reser : String → String → Bool) (f : FileInfo)
    (patterns : List String) (acc : EvalAcc) :
    (patterns.foldl
      (fun a pattern =>
        if reser pattern f.name then
          (a.1 + 1, a.2 ++ ["Name matches pattern: " ++ pattern])
        else a)
      acc).1 = acc.1 + (patterns.countP (fun pattern => reser pattern f.name) : Int) := by
  induction patterns generalizing acc with
  | nil => simp
  | cons p ps ih =>
    by_cases h : reser p f.name <;>
      simp [h, ih, List.countP_cons] <;> ring

theorem nameStep_fst (reser : String → String → Bool) (rules : EngineRules)
    (f : FileInfo) (acc : EvalAcc) :
    (nameStep reser rules f acc).1 = acc.1 + nameContrib reser rules f := by
  unfold nameStep nameContrib
  cases rules.name_patterns with
  | none => simp
  | some patterns => exact nameStep_foldl_fst reser f patterns acc

theorem exclStep_foldl_fst (f : FileInfo) (folders : List String) (acc : EvalAcc) :
    (folders.foldl
      (fun a folder =>
        if strContains folder f.path then
          (a.1 - 10, a.2 ++ ["Protected folder: " ++ folder])
        else a)
      acc).1 = acc.1 - 10 * ((folders.countP (fun folder => strContains folder f.path)) : Int) := by
  induction folders generalizing acc with
  | nil => simp
  | cons p ps ih =>
    by_cases h : strContains p f.path <;>
      simp [h, ih, List.countP_cons] <;> ring

theorem exclStep_fst (rules : EngineRules) (f : FileInfo) (acc : EvalAcc) :
    (exclStep rules f acc).1 = acc.1 + exclContrib rules f := by
  unfold exclStep exclContrib
  cases rules.excluded_folders with
  | none => simp
  | some folders =>
    rw [exclStep_foldl_fst]
    ring

theorem catStep_fst (rules : EngineRules) (f : FileInfo) (acc : EvalAcc) :
    (catStep rules f acc).1 = acc.1 + catContrib rules f := by
  unfold catStep catContrib
  cases rules.categories with
  | none => simp
  | some categories =>
    cases hl : categories.lookup (categorize_file f) with
    | none => simp [hl]
    | some category_rules =>
      by_cases h : category_rules.delete.getD false <;> simp [hl, h]

/-- The score of `evaluate_file` decomposes as the sum of the six rule
contributions. -/
theorem evalScore_eq (remat reser : String → String → Bool) (rules : EngineRules)
    (now : Int) (f : FileInfo) :
    evalScore remat reser rules now f =
      ageContrib rules now f + sizeContrib rules f + extContrib remat rules f
        + nameContrib reser rules f + exclContrib rules f + catContrib rules f := by
  unfold evalScore evaluate_core
  rw [catStep_fst, exclStep_fst, nameStep_fst, extStep_fst, sizeStep_fst, ageStep_fst]
  ring

/-! ### Concrete inputs used by counterexamples and witnesses -/

/-- A regex matcher that matches nothing (used where patterns are irrelevant). -/
def noMatch : String → String → Bool := fun _ _ => false

/-- Config whose only rule is two protected folders, both substrings of
`c8File`'s path. -/
def c8Rules : EngineRules := ⟨none, none, none, none, some ["a", "b"], none⟩

/-- A file whose path contains both protected folders of `c8Rules`. -/
def c8File : FileInfo := ⟨"ab", "ab", 0, 0, "", none⟩

/-- Config whose only rule is one protected folder. -/
def w8Rules : EngineRules := ⟨none, none, none, none, some ["secret"], none⟩

/-- A file whose path contains exactly the one protected folder of `w8Rules`. -/
def w8File : FileInfo := ⟨"/secret/x.txt", "x.txt", 0, 0, ".txt", none⟩

/-- A small, fresh `.tmp` file. -/
def c6File : FileInfo := ⟨"/t/a.tmp", "a.tmp", 10, 0, ".tmp", none⟩

/-- Scenario file `a.tmp`: 2 KB, 45 days old at `c9Now = 100`. -/
def aTmp : FileInfo := ⟨"/f/a.tmp", "a.tmp", 2048, 55, ".tmp", none⟩

/-- Scenario file `b.log`: 500 KB, 2 days old at `c9Now = 100`. -/
def bLog : FileInfo := ⟨"/f/b.log", "b.log", 512000, 98, ".log", none⟩

/-- Scenario file `notes.txt`: 10 MB, 1 day old at `c9Now = 100`. -/
def notesTxt : FileInfo := ⟨"/f/notes.txt", "notes.txt", 10485760, 99, ".txt", none⟩

/-- The scenario config `{delete_tmp: true, file_age_days: 30, min_size_mb: 1}`. -/
def c9Rules : CleanRules := ⟨some true, none, none, none, some 30, some 1⟩

/-- The scan instant of the scenario, in days. -/
def c9Now : Int := 100

/-! ### Claims about the rules engine and the simple filter -/

/-- C1: for every file record and rule configuration, `evaluate_file` decides
`score >= 2`, where the score is the sum, in the fixed block order
age -> size -> extension -> name patterns -> protected paths -> category, of
`+1` for exceeded age, `+1` for exceeded size, `+2` once when some extension
pattern matches (the scan stops at the first match, so the bonus is not per
pattern), `+1` per matching name pattern, `-10` per protected-path substring
of the path, and `+3` when the file's category has its delete flag true. -/
theorem C1_evaluate_scoring (remat reser : String → String → Bool)
    (rules : EngineRules) (now : Int) (f : FileInfo) :
    ((evaluate_file remat reser rules now f).1 = true ↔
      evalScore remat reser rules now f ≥ 2)
    ∧ evalScore remat reser rules now f =
        ageContrib rules now f + sizeContrib rules f + extContrib remat rules f
          + nameContrib reser rules f + exclContrib rules f + catContrib rules f := by
  refine ⟨?_, evalScore_eq remat reser rules now f⟩
  simp [evaluate_file, evalScore]

/-- C8 counterexample: with two configured protected folders both contained
in the path, `evaluate_file` subtracts 10 twice — the total score is `-20`,
not the claimed exact reduction by 10 (the score with the protected-path
rule absent is `0`). -/
theorem C8_counterexample :
    ((c8Rules.excluded_folders.getD []).any fun folder => strContains folder c8File.path) = true
    ∧ evalScore noMatch noMatch c8Rules 0 c8File = -20
    ∧ evalScore noMatch noMatch emptyEngineRules 0 c8File = 0
    ∧ (-20 : Int) ≠ 0 - 10 := by decide

/-- C8 (amended): `evaluate_file` subtracts 10 for each matching
protected-path substring; when exactly one matches, the score is reduced by
exactly 10 and the decision is false unless the other rules simultaneously
contribute at least 12 points. -/
theorem C8_amended (remat reser : String → String → Bool) (rules : EngineRules)
    (now : Int) (f : FileInfo)
    (hk : ((rules.excluded_folders.getD []).countP
      fun folder => strContains folder f.path) = 1) :
    evalScore remat reser rules now f =
      evalScore remat reser { rules with excluded_folders := none } now f - 10
    ∧ ((evaluate_file remat reser rules now f).1 = true ↔
        evalScore remat reser { rules with excluded_folders := none } now f ≥ 12) := by
  have hexcl : exclContrib rules f = -10 := by
    unfold exclContrib
    cases hof : rules.excluded_folders with
    | none => simp [hof] at hk
    | some folders =>
      rw [hof] at hk
      simp only [Option.getD] at hk
      simp [hk]
  have hsum := evalScore_eq remat reser rules now f
  have hsum' := evalScore_eq remat reser { rules with excluded_folders := none } now f
  have hexcl' : exclContrib { rules with excluded_folders := none } f = 0 := by
    unfold exclContrib
    simp
  have hsame : evalScore remat reser rules now f =
      evalScore remat reser { rules with excluded_folders := none } now f - 10 := by
    rw [hsum, hsum', hexcl, hexcl']
    unfold ageContrib sizeContrib extContrib nameContrib catContrib
    ring
  refine ⟨hsame, ?_⟩
  have hdec : (evaluate_file remat reser rules now f).1 = true ↔
      evalScore remat reser rules now f ≥ 2 := by
    simp [evaluate_file, evalScore]
  rw [hdec, hsame]
  omega

/-- C8 witness: for a file whose path contains exactly the one configured
protected folder, the amended statement holds concretely. -/
theorem C8_amended_witness :
    (((w8Rules.excluded_folders.getD []).countP
      fun folder => strContains folder w8File.path) = 1)
    ∧ (evalScore noMatch noMatch w8Rules 0 w8File =
        evalScore noMatch noMatch { w8Rules with excluded_folders := none } 0 w8File - 10
      ∧ ((evaluate_file noMatch noMatch w8Rules 0 w8File).1 = true ↔
          evalScore noMatch noMatch { w8Rules with excluded_folders := none } 0 w8File ≥ 12)) :=
  ⟨by decide, C8_amended noMatch noMatch w8Rules 0 w8File (by decide)⟩

/-- Pointwise value of `should_delete` under the empty configuration: the
defaults `delete_tmp=True`, `file_age_days=30`, `min_size_mb=1` apply. -/
theorem should_delete_empty (now : Int) (file : FileInfo) :
    should_delete emptyCleanRules now file =
      ([".tmp", ".temp"].contains file.extension
        || decide (now - file.modified > 30)
        || decide ((file.size : Int) > 1 * 1024 * 1024)) := by
  unfold should_delete emptyCleanRules
  by_cases h1 : [".tmp", ".temp"].contains file.extension <;>
    by_cases h2 : now - file.modified > 30 <;>
      by_cases h3 : (file.size : Int) > 1 * 1024 * 1024 <;>
        simp [h1, h2, h3, Bool.or_comm, Bool.or_left_comm, Bool.or_assoc]

/-- C6 counterexample: under the entirely empty simple configuration `{}`,
`filter_files` retains a fresh small `.tmp` file (because `delete_tmp`
defaults to `True`), so it does not return the empty subset. -/
theorem C6_counterexample :
    filter_files emptyCleanRules 0 [c6File] = [c6File]
    ∧ filter_files emptyCleanRules 0 [c6File] ≠ [] := by decide

/-- C6 (amended): with every optional field absent, `evaluate_file` indeed
returns decision=false with score 0 and no reasons for every record, but
`filter_files` falls back to its defaults (`delete_tmp=True`,
`file_age_days=30`, `min_size_mb=1`) and returns exactly the files with a
`.tmp`/`.temp` extension, or older than 30 days, or larger than 1 MB — a
possibly non-empty subset. -/
theorem C6_amended (remat reser : String → String → Bool) (now : Int) (f : FileInfo)
    (files : List FileInfo) :
    evaluate_file remat reser emptyEngineRules now f = (false, [])
    ∧ evalScore remat reser emptyEngineRules now f = 0
    ∧ filter_files emptyCleanRules now files =
        files.filter (fun file =>
          [".tmp", ".temp"].contains file.extension
            || decide (now - file.modified > 30)
            || decide ((file.size : Int) > 1 * 1024 * 1024)) := by
  refine ⟨?_, ?_, ?_⟩
  · simp [evaluate_file, evaluate_core, ageStep, sizeStep, extStep, nameStep,
      exclStep, catStep, emptyEngineRules]
  · simp [evalScore, evaluate_core, ageStep, sizeStep, extStep, nameStep,
      exclStep, catStep, emptyEngineRules]
  · exact List.filter_congr fun x _ => should_delete_empty now x

/-- C9 counterexample: on the three scenario files with config
`{delete_tmp: true, file_age_days: 30, min_size_mb: 1}`, `filter_files`
returns `[a.tmp, notes.txt]`, not the claimed `[a.tmp]` — `notes.txt`
(10 MB) is over, not under, the 1 MB size threshold. -/
theorem C9_counterexample :
    filter_files c9Rules c9Now [aTmp, bLog, notesTxt] = [aTmp, notesTxt]
    ∧ filter_files c9Rules c9Now [aTmp, bLog, notesTxt] ≠ [aTmp] := by decide

/-- C9 (amended): the scenario yields exactly `[a.tmp, notes.txt]`: `a.tmp`
is retained (extension and age rules), `b.log` is not (its extension rule is
disabled, and it is neither old nor large enough), and `notes.txt` is
retained by the size rule because 10 MB exceeds the 1 MB threshold. -/
theorem C9_amended :
    filter_files c9Rules c9Now [aTmp, bLog, notesTxt] = [aTmp, notesTxt]
    ∧ should_delete c9Rules c9Now bLog = false
    ∧ (notesTxt.size : Int) > c9Rules.min_size_mb.getD 1 * 1024 * 1024 := by decide

/-! ### Batch-processor lemmas -/

/-- Number of outcomes aggregated into a summary. -/
def countedOutcomes (s : BatchSummary) : Nat := s.success + s.failed + s.skipped

/-- Per-completion `.size` consistency: a result dict carries the size of the
file it was built from (true of every dict built by `process_file`). -/
def sizeConsistent (c : Completion) : Bool :=
  match c.2 with
  | Except.ok r => r.size == c.1.size
  | Except.error _ => true

theorem stepSummary_spec (s : BatchSummary) (c : Completion) :
    stepSummary s c =
      { success := s.success + (if isSuccCompletion c then 1 else 0),
        failed := s.failed + (if isFailCompletion c then 1 else 0),
        skipped := s.skipped,
        total_size := s.total_size + completionSize c,
        errors := s.errors ++ (completionErr c).toList } := by
  rcases c with ⟨f, r⟩
  cases r with
  | ok r' =>
    by_cases h : r'.success <;>
      simp [stepSummary, isSuccCompletion, isFailCompletion, completionSize,
        completionErr, h]
  | error e =>
    simp [stepSummary, isSuccCompletion, isFailCompletion, completionSize,
      completionErr]

theorem runBatchAux_stopNever (cs : List Completion) :
    ∀ (i : Nat) (s : BatchSummary),
      runBatchAux stopNever i s cs = cs.foldl stepSummary s := by
  induction cs with
  | nil => intro i s; rfl
  | cons c cs ih =>
    intro i s
    simp [runBatchAux, stopNever, ih]

theorem foldl_stepSummary_success (cs : List Completion) :
    ∀ s : BatchSummary,
      (cs.foldl stepSummary s).success = s.success + cs.countP isSuccCompletion := by
  induction cs with
  | nil => intro s; simp
  | cons c cs ih =>
    intro s
    rw [List.foldl_cons, ih, stepSummary_spec, List.countP_cons]
    by_cases h : isSuccCompletion c <;> simp [h] <;> omega

theorem foldl_stepSummary_failed (cs : List Completion) :
    ∀ s : BatchSummary,
      (cs.foldl stepSummary s).failed = s.failed + cs.countP isFailCompletion := by
  induction cs with
  | nil => intro s; simp
  | cons c cs ih =>
    intro s
    rw [List.foldl_cons, ih, stepSummary_spec, List.countP_cons]
    by_cases h : isFailCompletion c <;> simp [h] <;> omega

theorem foldl_stepSummary_skipped (cs : List Completion) :
    ∀ s : BatchSummary, (cs.foldl stepSummary s).skipped = s.skipped := by
  induction cs with
  | nil => intro s; simp
  | cons c cs ih =>
    intro s
    rw [List.foldl_cons, ih, stepSummary_spec]

theorem foldl_stepSummary_total_size (cs : List Completion) :
    ∀ s : BatchSummary,
      (cs.foldl stepSummary s).total_size = s.total_size + (cs.map completionSize).sum := by
  induction cs with
  | nil => intro s; simp
  | cons c cs ih =>
    intro s
    rw [List.foldl_cons, ih, stepSummary_spec]
    simp [Nat.add_assoc]

theorem foldl_stepSummary_errors (cs : List Completion) :
    ∀ s : BatchSummary,
      (cs.foldl stepSummary s).errors = s.errors ++ cs.filterMap completionErr := by
  induction cs with
  | nil => intro s; simp
  | cons c cs ih =>
    intro s
    rw [List.foldl_cons, ih, stepSummary_spec, List.filterMap_cons]
    cases hce : completionErr c <;> simp [hce]

/-- The two loop branches are complementary: every completion is exactly one
of success and failed. -/
theorem isFail_eq_not_isSucc (c : Completion) :
    isFailCompletion c = !isSuccCompletion c := by
  rcases c with ⟨f, r⟩
  cases r <;> simp [isFailCompletion, isSuccCompletion]

theorem countP_succ_add_fail (cs : List Completion) :
    cs.countP isSuccCompletion + cs.countP isFailCompletion = cs.length := by
  induction cs with
  | nil => simp
  | cons c cs ih =>
    rw [List.countP_cons, List.countP_cons, isFail_eq_not_isSucc]
    by_cases h : isSuccCompletion c <;> simp [h] <;> omega

theorem counted_foldl (cs : List Completion) :
    countedOutcomes (cs.foldl stepSummary initSummary) = cs.length := by
  unfold countedOutcomes
  rw [foldl_stepSummary_success, foldl_stepSummary_failed, foldl_stepSummary_skipped]
  have := countP_succ_add_fail cs
  simp [initSummary]
  omega

/-- With size-consistent completions, the accumulated byte total is the sum
of the sizes of the files whose outcome succeeded. -/
theorem sum_completionSize (cs : List Completion)
    (hsz : ∀ c ∈ cs, sizeConsistent c = true) :
    (cs.map completionSize).sum
      = ((cs.filter isSuccCompletion).map (fun c => c.1.size)).sum := by
  induction cs with
  | nil => simp
  | cons c cs ih =>
    have hc := hsz c (List.mem_cons_self c cs)
    have hcs : ∀ x ∈ cs, sizeConsistent x = true :=
      fun x hx => hsz x (List.mem_cons_of_mem c hx)
    have hsize : completionSize c = if isSuccCompletion c then c.1.size else 0 := by
      rcases c with ⟨f, r⟩
      cases r with
      | ok r' =>
        simp only [sizeConsistent, beq_iff_eq] at hc
        by_cases h : r'.success <;>
          simp [completionSize, isSuccCompletion, h, hc]
      | error e => simp [completionSize, isSuccCompletion]
    rw [List.map_cons, List.sum_cons, ih hcs, hsize]
    by_cases h : isSuccCompletion c <;> simp [h, List.filter_cons]

theorem countedOutcomes_step (s : BatchSummary) (c : Completion) :
    countedOutcomes (stepSummary s c) = countedOutcomes s + 1 := by
  rw [stepSummary_spec]
  unfold countedOutcomes
  rw [isFail_eq_not_isSucc]
  by_cases h : isSuccCompletion c <;> simp [h] <;> omega

theorem runBatchAux_counted_le (stopFlag : Nat → Bool) (cs : List Completion) :
    ∀ (i : Nat) (s : BatchSummary) (k : Nat), stopFlag (i + k) = true →
      countedOutcomes (runBatchAux stopFlag i s cs) ≤ countedOutcomes s + k := by
  induction cs with
  | nil => intro i s k _; simp [runBatchAux]
  | cons c cs ih =>
    intro i s k hk
    unfold runBatchAux
    by_cases h : stopFlag i = true
    · simp [h]
    · simp only [h, if_false]
      cases k with
      | zero => rw [Nat.add_zero] at hk; exact absurd hk h
      | succ k' =>
        have hk' : stopFlag (i + 1 + k') = true := by
          have harith : i + 1 + k' = i + (k' + 1) := by omega
          rw [harith]; exact hk
        calc countedOutcomes (runBatchAux stopFlag (i + 1) (stepSummary s c) cs)
            ≤ countedOutcomes (stepSummary s c) + k' := ih (i + 1) (stepSummary s c) k' hk'
          _ = countedOutcomes s + 1 + k' := by rw [countedOutcomes_step]
          _ ≤ countedOutcomes s + (k' + 1) := by omega

theorem runBatchAux_skipped (stopFlag : Nat → Bool) (cs : List Completion) :
    ∀ (i : Nat) (s : BatchSummary),
      (runBatchAux stopFlag i s cs).skipped = s.skipped := by
  induction cs with
  | nil => intro i s; rfl
  | cons c cs ih =>
    intro i s
    unfold runBatchAux
    by_cases h : stopFlag i = true
    · simp [h]
    · rw [if_neg h, ih, stepSummary_spec]

/-! ### Scanner lemmas -/

/-- The file record `scan_files` builds for one walked entry (`none` when the
entry's stat raised and it is skipped). -/
def entryRecord (e : DirEntry) : Option FileInfo :=
  e.stat.map fun st =>
    { path := e.path, name := e.name, size := st.1, modified := st.2,
      extension := strLower (splitextExt e.name), mime_type := none }

theorem scan_foldl_spec (entries : List DirEntry) :
    ∀ acc : List FileInfo × Nat,
      entries.foldl scanStep acc =
        (acc.1 ++ entries.filterMap entryRecord,
         acc.2 + ((entries.filterMap entryRecord).map FileInfo.size).sum) := by
  induction entries with
  | nil => intro acc; simp
  | cons e es ih =>
    intro acc
    rw [List.foldl_cons, ih, List.filterMap_cons]
    cases hst : e.stat with
    | none => simp [scanStep, entryRecord, hst]
    | some st => simp [scanStep, entryRecord, hst, Nat.add_assoc]

/-! ### Further concrete inputs -/

/-- A folder whose root path does not exist (or is not a directory), yet
containing a perfectly readable file had the root been walkable. -/
def badFolder : Folder := ⟨false, [⟨"/x/a.txt", "a.txt", some (5, 0)⟩]⟩

/-- Path facts for an existing regular `.exe` file of 100 bytes. -/
def exeState : PathState := ⟨true, false, false, ".exe", 100⟩

/-- The batch record for the same `.exe` file. -/
def exeFile : FileInfo := ⟨"/x/tool.exe", "tool.exe", 100, 0, ".exe", none⟩

/-- Path facts for an unremarkable small `.txt` file. -/
def okState : PathState := ⟨true, false, false, ".txt", 10⟩

/-- A first plain file for batch examples. -/
def wFileA : FileInfo := ⟨"/b/a.txt", "a.txt", 100, 0, ".txt", none⟩

/-- A second plain file for batch examples. -/
def wFileB : FileInfo := ⟨"/b/b.txt", "b.txt", 50, 0, ".txt", none⟩

/-- A two-completion batch: one successful delete, one worker exception. -/
def wBatch : List Completion :=
  [(wFileA, Except.ok (process_file wFileA "delete" (Except.ok ()))),
   (wFileB, Except.error "timeout")]

/-- `wBatch` with the two completions arriving in the opposite order. -/
def wBatchRev : List Completion :=
  [(wFileB, Except.error "timeout"),
   (wFileA, Except.ok (process_file wFileA "delete" (Except.ok ())))]

/-! ### Claims about the scanner, the guard and the batch processor -/

/-- C5 counterexample: for a root path that does not exist or is not a
directory, `scan_files` returns the empty sequence `([], 0)` — it does not
fail; the spec-modelled contract `scan_spec` would instead surface a
`ScanError` on the same input. -/
theorem C5_counterexample :
    badFolder.rootIsDir = false
    ∧ scan_files badFolder = ([], 0)
    ∧ scan_spec badFolder = Except.error ScanError.rootMissingOrNotDir := by
  refine ⟨rfl, rfl, rfl⟩

/-- C5 (amended): for a root that does not exist or is not a directory,
`scan_files` returns the empty record list (and zero total size) without any
error; for an existing root, exactly the individually readable files appear,
unreadable ones being silently omitted. -/
theorem C5_amended (fs : Folder) :
    scan_files fs =
      if fs.rootIsDir then
        (fs.entries.filterMap entryRecord,
         ((fs.entries.filterMap entryRecord).map FileInfo.size).sum)
      else ([], 0) := by
  unfold scan_files
  by_cases h : fs.rootIsDir <;> simp [h, scan_foldl_spec]

/-- C4 counterexample: `BatchProcessor.process_file` with operation
`'delete'` never consults the safety guard: for an existing `.exe` file —
which `FileOperations.safe_delete` rejects with "Unsafe extension" — the
processor simply removes it and reports success. -/
theorem C4_counterexample :
    (safe_delete exeState true true RemovalModel.ok).1 = false
    ∧ (safe_delete exeState true true RemovalModel.ok).2 = "Unsafe extension: .exe"
    ∧ (process_file exeFile "delete" (Except.ok ())).success = true
    ∧ (process_file exeFile "delete" (Except.ok ())).error = none := by
  refine ⟨by decide, by decide, rfl, rfl⟩

/-- C4 (amended): the safety checks live in `FileOperations.safe_delete`,
which permits deletion only when the path exists, is no symlink, does not
resolve to the home directory, has no protected extension and is at most
100 MiB — but `BatchProcessor.process_file` does not invoke that guard for
`'delete'`: it calls `os.remove` directly, succeeding whenever the removal
does not raise, and producing a failed outcome with the exception text only
when it does. -/
theorem C4_amended (f : FileInfo) (e : String) (st : PathState)
    (send_to_trash trashWorks : Bool) (removal : RemovalModel)
    (hok : (safe_delete st send_to_trash trashWorks removal).1 = true) :
    (process_file f "delete" (Except.ok ())).success = true
    ∧ (process_file f "delete" (Except.error e)).success = false
    ∧ (process_file f "delete" (Except.error e)).error = some e
    ∧ st.pathExists = true ∧ st.is_symlink = false ∧ st.resolvesToHome = false
    ∧ safe_extensions.contains (strLower st.suffix) = false
    ∧ st.size ≤ 100 * 1024 * 1024 := by
  refine ⟨rfl, rfl, rfl, ?_⟩
  by_cases h1 : st.pathExists = true
  · by_cases h2 : st.is_symlink = true
    · simp [safe_delete, h1, h2] at hok
    · by_cases h3 : st.resolvesToHome = true
      · simp [safe_delete, h1, h2, h3] at hok
      · by_cases h4 : strLower st.suffix ∈ safe_extensions
        · simp [safe_delete, h1, h2, h3, h4] at hok
        · by_cases h5 : 104857600 < st.size
          · simp [safe_delete, h1, h2, h3, h4, h5] at hok
          · refine ⟨h1, by simpa using h2, by simpa using h3, by simpa using h4, by omega⟩
  · simp [safe_delete, h1] at hok

/-- C4 witness: the amended statement at a concrete innocuous file that the
guard does allow. -/
theorem C4_amended_witness :
    (safe_delete okState true true RemovalModel.ok).1 = true
    ∧ ((process_file wFileA "delete" (Except.ok ())).success = true
      ∧ (process_file wFileA "delete" (Except.error "gone")).success = false
      ∧ (process_file wFileA "delete" (Except.error "gone")).error = some "gone"
      ∧ okState.pathExists = true ∧ okState.is_symlink = false
      ∧ okState.resolvesToHome = false
      ∧ safe_extensions.contains (strLower okState.suffix) = false
      ∧ okState.size ≤ 100 * 1024 * 1024) :=
  ⟨by decide, C4_amended wFileA "gone" okState true true RemovalModel.ok (by decide)⟩

/-- C2: a per-file exception or error never aborts the batch: an `os.remove`
exception is converted by `process_file` into a result with `success=False`
and the exception text as error; every non-success completion is counted in
`failed` with its error appended to the summary's error list, in order; and
the summary is complete — every completion is aggregated (success + failed +
skipped = number of files), even when every file failed. -/
theorem C2_failure_aggregation (f : FileInfo) (e : String) (cs : List Completion) :
    (process_file f "delete" (Except.error e)).success = false
    ∧ (process_file f "delete" (Except.error e)).error = some e
    ∧ (process_batch stopNever cs).failed = cs.countP isFailCompletion
    ∧ (process_batch stopNever cs).errors = cs.filterMap completionErr
    ∧ countedOutcomes (process_batch stopNever cs) = cs.length := by
  refine ⟨rfl, rfl, ?_, ?_, ?_⟩
  · rw [process_batch, runBatchAux_stopNever, foldl_stepSummary_failed]
    simp [initSummary]
  · rw [process_batch, runBatchAux_stopNever, foldl_stepSummary_errors]
    simp [initSummary]
  · rw [process_batch, runBatchAux_stopNever, counted_foldl]

/-- C3: for a batch that runs to completion without cancellation,
success + failed + skipped equals the number of files, `total_size` is the
sum of the sizes of exactly the files whose outcome succeeded, and all four
aggregate counts are invariant under permuting the completion order. -/
theorem C3_summary_sums (cs csPerm : List Completion)
    (hperm : cs.Perm csPerm)
    (hsz : ∀ c ∈ cs, sizeConsistent c = true) :
    countedOutcomes (process_batch stopNever cs) = cs.length
    ∧ (process_batch stopNever cs).total_size
        = ((cs.filter isSuccCompletion).map (fun c => c.1.size)).sum
    ∧ (process_batch stopNever csPerm).success = (process_batch stopNever cs).success
    ∧ (process_batch stopNever csPerm).failed = (process_batch stopNever cs).failed
    ∧ (process_batch stopNever csPerm).skipped = (process_batch stopNever cs).skipped
    ∧ (process_batch stopNever csPerm).total_size = (process_batch stopNever cs).total_size := by
  refine ⟨?_, ?_, ?_, ?_, ?_, ?_⟩
  · rw [process_batch, runBatchAux_stopNever, counted_foldl]
  · rw [process_batch, runBatchAux_stopNever, foldl_stepSummary_total_size,
      sum_completionSize cs hsz]
    simp [initSummary]
  · rw [process_batch, process_batch, runBatchAux_stopNever, runBatchAux_stopNever,
      foldl_stepSummary_success, foldl_stepSummary_success, hperm.countP_eq]
  · rw [process_batch, process_batch, runBatchAux_stopNever, runBatchAux_stopNever,
      foldl_stepSummary_failed, foldl_stepSummary_failed, hperm.countP_eq]
  · rw [process_batch, process_batch, runBatchAux_stopNever, runBatchAux_stopNever,
      foldl_stepSummary_skipped, foldl_stepSummary_skipped]
  · rw [process_batch, process_batch, runBatchAux_stopNever, runBatchAux_stopNever,
      foldl_stepSummary_total_size, foldl_stepSummary_total_size,
      (hperm.map completionSize).sum_eq]

/-- C3 witness: the sums at a concrete two-file batch (one success, one
failure) and its reversed completion order. -/
theorem C3_summary_sums_witness :
    wBatch.Perm wBatchRev
    ∧ (∀ c ∈ wBatch, sizeConsistent c = true)
    ∧ (countedOutcomes (process_batch stopNever wBatch) = wBatch.length
      ∧ (process_batch stopNever wBatch).total_size
          = ((wBatch.filter isSuccCompletion).map (fun c => c.1.size)).sum
      ∧ (process_batch stopNever wBatchRev).success = (process_batch stopNever wBatch).success
      ∧ (process_batch stopNever wBatchRev).failed = (process_batch stopNever wBatch).failed
      ∧ (process_batch stopNever wBatchRev).skipped = (process_batch stopNever wBatch).skipped
      ∧ (process_batch stopNever wBatchRev).total_size
          = (process_batch stopNever wBatch).total_size) :=
  ⟨by unfold wBatch wBatchRev; exact List.Perm.swap _ _ _, by decide,
   C3_summary_sums wBatch wBatchRev
     (by unfold wBatch wBatchRev; exact List.Perm.swap _ _ _) (by decide)⟩

/-- C7: once the stop flag reads true at loop index `i`, at most `i`
completions have been aggregated into the returned summary (the loop breaks
before processing the completion at that index, and `process_batch` still
returns the summary built so far); `stop_processing` is idempotent. -/
theorem C7_cooperative_stop (stopFlag : Nat → Bool) (cs : List Completion) (i : Nat)
    (h : stopFlag i = true) (p : BatchProcessor) :
    countedOutcomes (process_batch stopFlag cs) ≤ i
    ∧ stop_processing (stop_processing p) = stop_processing p := by
  constructor
  · have hle := runBatchAux_counted_le stopFlag cs 0 initSummary i (by simpa using h)
    simpa [countedOutcomes, initSummary] using hle
  · rfl

/-- C7 witness: a flag that turns true from index 1 on caps the aggregated
outcomes of a two-completion batch at 1; stopping twice equals stopping
once. -/
theorem C7_cooperative_stop_witness :
    ((fun n => decide (1 ≤ n)) 1 = true)
    ∧ (countedOutcomes (process_batch (fun n => decide (1 ≤ n)) wBatch) ≤ 1
      ∧ stop_processing (stop_processing ⟨4, false⟩) = stop_processing ⟨4, false⟩) :=
  ⟨by decide, C7_cooperative_stop (fun n => decide (1 ≤ n)) wBatch 1 (by decide) ⟨4, false⟩⟩

/-- C10: `skipped` is never incremented on any code path: whatever the
completions, the operation kind behind them, the errors among them and the
stop flag, the returned summary's `skipped` count is 0. -/
theorem C10_skipped_always_zero (stopFlag : Nat → Bool) (cs : List Completion) :
    (process_batch stopFlag cs).skipped = 0 := by
  rw [process_batch, runBatchAux_skipped]
  rfl

end DeskTidy
